import Mathlib

/-!
A verification development for the machined core (`src/machine/machined-core.c`):
a machine registry with PID/UID lookup, a deferred garbage-collection drain, and
a cross-namespace address resolver with a minimal datagram framing protocol.

The C functions of `machined-core.c` are embedded as pure Lean functions.
Helpers that live in other translation units of the repository
(`machine_may_gc`, `machine_stop`, `machine_link`, `machine_owns_uid`,
`machine_owns_gid`, the per-machine GC enqueue) are modelled from the spec,
as flagged in their doc comments.  External collaborators (`cg_pid_get_unit`,
`local_addresses`, the OS calls of the resolver) are passed in as parameters
or as environment fields recording their results.
-/

namespace Machined

/-- Lifecycle state of a machine (`MachineState` in the source): Opening while
being provisioned, Running once set up, Closing while being torn down. -/
inductive MachineState where
  | opening
  | running
  | closing
deriving DecidableEq, Repr

/-- Class of a machine (`MachineClass`): the invalid placeholder is used for
freshly registered machines whose classification is still pending. -/
inductive MachineClass where
  | invalid
  | host
  | container
  | vm
deriving DecidableEq, Repr

/-- One registry entry, with the fields the core reads and writes.
`referenced` abstracts "has outstanding external references" (jobs, live leader
process, ...), which is what the may-collect predicate consults.  `leader` is
the leader PID (used as the key of the leader index), `unit` the owning unit
name; both are absent on a freshly created machine. -/
structure Machine where
  name : String
  mclass : MachineClass
  state : MachineState
  leader : Option Nat
  unit : Option String
  referenced : Bool
  in_gc_queue : Bool
  uid_shift : Nat
  uid_range : Nat
  gid_shift : Nat
  gid_range : Nat
deriving DecidableEq, Repr

/-- Association-list lookup standing in for `hashmap_get`. -/
def hget {α β : Type} [DecidableEq α] : List (α × β) → α → Option β
  | [], _ => none
  | (k, v) :: rest, key => if k = key then some v else hget rest key

/-- Number of entries stored under a key, standing in for counting a
hashmap's entries for one key. -/
def hcount {α β : Type} [DecidableEq α] : List (α × β) → α → Nat
  | [], _ => 0
  | (k, _) :: rest, key => (if k = key then 1 else 0) + hcount rest key

/-- The manager's three indices (`m->machines`, `m->machines_by_leader`,
`m->machines_by_unit`), each as an association list in insertion order. -/
structure Manager where
  machines : List (String × Machine)
  machines_by_leader : List (Nat × Machine)
  machines_by_unit : List (String × Machine)
deriving DecidableEq, Repr

/-- Errno values used by the core (as positive constants; the C functions
return their negations). -/
def echild : Int := 10

def eio : Int := 5

def enoexec : Int := 8

def enomem : Int := 12

def enonet : Int := 64

def enotsup : Int := 95

def eshutdown : Int := 108

def exitSuccess : Int := 0

/-! ## PID-to-machine lookup (`manager_get_machine_by_pid`) -/

/-- Embeds `manager_get_machine_by_pid`: first consult the leader index under the
PID; on a miss, derive the PID's unit name (`cg_pid_get_unit`, an external
collaborator whose outcome is passed in as `cg_result`) and consult the unit
index.  The returned `Int` is the C return value (1 = found, 0 = not found);
the option is the machine stored through `*ret`.  A failure of the unit-name
derivation leaves the unit index unconsulted, so the lookup falls through to
the not-found result instead of propagating the error. -/
def manager_get_machine_by_pid (m : Manager) (pid : Nat)
    (cg_result : Except Int String) : Int × Option Machine :=
  match hget m.machines_by_leader pid with
  | some mm => (1, some mm)
  | none =>
      match cg_result with
      | .ok unit =>
          match hget m.machines_by_unit unit with
          | some mm => (1, some mm)
          | none => (0, none)
      | .error _ => (0, none)

/-! ## Machine registration (`manager_add_machine`) -/

/-- The machine produced by `machine_new(_MACHINE_CLASS_INVALID, name, ...)`:
state Opening, class invalid-placeholder, no leader, no unit, no references,
not queued for GC, zero UID/GID ranges. -/
def machine_new (name : String) : Machine :=
  { name := name
    mclass := MachineClass.invalid
    state := MachineState.opening
    leader := none
    unit := none
    referenced := false
    in_gc_queue := false
    uid_shift := 0
    uid_range := 0
    gid_shift := 0
    gid_range := 0 }

/-- Modelled from the spec: `machine_link` lives in `machine.c`, which is not
under `src/`.  Per the spec it inserts the machine into the name index and
into the leader/unit indices once those fields are populated, keeping the
indices mutually consistent within the operation; on failure the caller's
`machine_free` discards the machine, removing any partial insertion, so the
combined failure effect on the indices is "unchanged".  `link_ok` records
whether the underlying insertions succeed. -/
def machine_link (m : Manager) (mach : Machine) (link_ok : Bool) :
    Except Int Manager :=
  if link_ok then
    .ok
      { machines := m.machines ++ [(mach.name, mach)]
        machines_by_leader :=
          match mach.leader with
          | some p => m.machines_by_leader ++ [(p, mach)]
          | none => m.machines_by_leader
        machines_by_unit :=
          match mach.unit with
          | some u => m.machines_by_unit ++ [(u, mach)]
          | none => m.machines_by_unit }
  else .error (-enomem)

/-- Embeds `manager_add_machine`: get-or-create under a name.  On a hit the registry
is untouched and the existing machine is returned.  On a miss a fresh machine
(`machine_new`) is created (`new_ok` records whether that allocation
succeeds) and linked (`machine_link`); on a link failure the machine is freed
and the error returned.  Result: (return value, manager afterwards, machine
stored through `*ret`). -/
def manager_add_machine (m : Manager) (name : String)
    (new_ok link_ok : Bool) : Int × Manager × Option Machine :=
  match hget m.machines name with
  | some machine => (0, m, some machine)
  | none =>
      if new_ok then
        let machine := machine_new name
        match machine_link m machine link_ok with
        | .error r => (r, m, none)
        | .ok m2 => (0, m2, some machine)
      else (-enomem, m, none)

/-! ## Host UID/GID to machine translation (`manager_find_machine_for_uid`) -/

/-- Modelled from the spec: `machine_owns_uid` lives in `machine.c`, which is
not under `src/`.  Per the spec it tests whether the host UID falls inside
the machine's UID range and, on a match, translates it into the
machine-internal UID via the stored shift.  `.ok none` is "does not own",
`.ok (some u)` is "owns, internal UID u". -/
def machine_owns_uid (mach : Machine) (uid : Nat) : Except Int (Option Nat) :=
  if mach.uid_shift ≤ uid ∧ uid < mach.uid_shift + mach.uid_range then
    .ok (some (uid - mach.uid_shift))
  else .ok none

/-- Modelled from the spec: GID analog of `machine_owns_uid`. -/
def machine_owns_gid (mach : Machine) (gid : Nat) : Except Int (Option Nat) :=
  if mach.gid_shift ≤ gid ∧ gid < mach.gid_shift + mach.gid_range then
    .ok (some (gid - mach.gid_shift))
  else .ok none

/-- The `HASHMAP_FOREACH` scan shared verbatim by `manager_find_machine_for_uid`
and `manager_find_machine_for_gid`, over the machines in insertion order,
parameterised by the per-machine ownership test.  A negative per-machine
result is returned at once (`if (r < 0) return r`), aborting the scan; the
first positive result returns that machine with the translated ID; exhaustion
yields `.ok none`, the C "return false with *ret_machine = NULL and the
ID sentinel UID_INVALID/GID_INVALID" — an absent result, not an error. -/
def find_machine_scan (owns : Machine → Nat → Except Int (Option Nat)) :
    List Machine → Nat → Except Int (Option (Machine × Nat))
  | [], _ => .ok none
  | mach :: rest, id =>
      match owns mach id with
      | .error e => .error e
      | .ok (some converted) => .ok (some (mach, converted))
      | .ok none => find_machine_scan owns rest id

/-- The scan `manager_find_machine_for_uid` over the registry's machines in insertion
order. -/
def manager_find_machine_for_uid (machines : List Machine) (uid : Nat) :
    Except Int (Option (Machine × Nat)) :=
  find_machine_scan machine_owns_uid machines uid

/-- The scan `manager_find_machine_for_gid` over the registry's machines in insertion
order. -/
def manager_find_machine_for_gid (machines : List Machine) (gid : Nat) :
    Except Int (Option (Machine × Nat)) :=
  find_machine_scan machine_owns_gid machines gid

/-! ## Garbage collection (`manager_gc`, `on_deferred_gc`, `manager_enqueue_gc`)

The drain pops machines off the GC queue (FIFO).  `machine_may_gc` and
`machine_stop` live in `machine.c`, which is not under `src/`:
`machine_may_gc` is modelled from the spec; `machine_stop` — the initiation
of an asynchronous stop, which may change the machine's state and reference
situation — is kept abstract as a parameter `stop : Machine → Machine`
giving the popped machine's fields after the stop call returns. -/

/-- Modelled from the spec: `machine_may_gc(machine, drop_not_started)` is
defined in `machine.c`, not under `src/`.  Per the spec it is "true iff the
Machine has no outstanding external references AND (the caller allows
dropping not-yet-started machines OR the Machine has already progressed past
Opening)". -/
def machine_may_gc (m : Machine) (drop_not_started : Bool) : Bool :=
  !m.referenced && (drop_not_started || decide (m.state ≠ MachineState.opening))

/-- The accessor `machine_get_state` reports the machine's lifecycle state. -/
def machine_get_state (m : Machine) : MachineState := m.state

/-- The popped machine after the body of one `manager_gc` loop iteration up to
and including the conditional stop: the `in_gc_queue` flag is cleared, then
`machine_stop` is invoked iff may-collect holds and the state is not already
Closing. -/
def gc_post_stop (stop : Machine → Machine) (drop_not_started : Bool)
    (m0 : Machine) : Machine :=
  if machine_may_gc { m0 with in_gc_queue := false } drop_not_started &&
      !decide (machine_get_state { m0 with in_gc_queue := false } =
        MachineState.closing) then
    stop { m0 with in_gc_queue := false }
  else { m0 with in_gc_queue := false }

/-- Fate of one popped machine: freed (i.e. `machine_finalize` followed by
`machine_free`, the machine leaving the registry) carrying its fields at free
time, or kept (it stays registered and live, merely dropped from the queue). -/
inductive GCOutcome where
  | freed (final : Machine)
  | kept (final : Machine)
deriving DecidableEq, Repr

/-- One iteration of the `manager_gc` loop on the popped machine: after the
conditional stop, may-collect is re-evaluated; if it holds the machine is
finalized and freed, otherwise it is kept. -/
def gc_step (stop : Machine → Machine) (drop_not_started : Bool)
    (m0 : Machine) : GCOutcome :=
  if machine_may_gc (gc_post_stop stop drop_not_started m0) drop_not_started then
    .freed (gc_post_stop stop drop_not_started m0)
  else .kept (gc_post_stop stop drop_not_started m0)

/-- Embeds `manager_gc`: drain the whole queue, FIFO, applying `gc_step` to every
popped machine.  Returns (machines finalized-and-freed, machines kept), each
in pop order. -/
def manager_gc (stop : Machine → Machine) (drop_not_started : Bool) :
    List Machine → List Machine × List Machine
  | [] => ([], [])
  | m0 :: rest =>
      match gc_step stop drop_not_started m0 with
      | .freed f =>
          (f :: (manager_gc stop drop_not_started rest).1,
           (manager_gc stop drop_not_started rest).2)
      | .kept k =>
          ((manager_gc stop drop_not_started rest).1,
           k :: (manager_gc stop drop_not_started rest).2)

/-- Modelled from the spec: the per-machine GC enqueue (§4.2) lives outside
`src/`.  It is idempotent — a no-op if the machine is already queued —
otherwise it marks `in_gc_queue` and appends the machine to the queue. -/
def enqueue_gc (q : List Machine) (m : Machine) : List Machine :=
  if m.in_gc_queue then q else q ++ [{ m with in_gc_queue := true }]

/-! ### The deferred GC event source -/

/-- The only event callback this translation unit registers. -/
inductive GcCallback where
  | deferred_gc
deriving DecidableEq, Repr

/-- The deferred GC event source: which callback it fires, whether it is
enabled (one-shot), and whether its priority was lowered to idle. -/
structure EventSource where
  callback : GcCallback
  enabled : Bool
  priority_idle : Bool
deriving DecidableEq, Repr

/-- The manager's `deferred_gc_event_source` slot. -/
structure EvManager where
  source : Option EventSource
deriving DecidableEq, Repr

/-- Firing a registered callback on the GC queue.  `on_deferred_gc` calls
`manager_gc(userdata, /* drop_not_started= */ true)`. -/
def dispatch (stop : Machine → Machine) :
    GcCallback → List Machine → List Machine × List Machine
  | .deferred_gc, q => manager_gc stop true q

/-- Embeds `manager_enqueue_gc`: if the deferred source already exists, re-enable it
one-shot; otherwise register a fresh deferred source firing `on_deferred_gc`
at idle priority (`alloc_ok` records whether `sd_event_add_defer` succeeds;
on failure the situation is logged and left as-is). -/
def manager_enqueue_gc (m : EvManager) (alloc_ok : Bool) : EvManager :=
  match m.source with
  | some es => { m with source := some { es with enabled := true } }
  | none =>
      if alloc_ok then
        { m with
          source := some
            { callback := GcCallback.deferred_gc
              enabled := true
              priority_idle := true } }
      else m

/-! ## Cross-namespace address resolution (`machine_get_addresses`)

For the container class the parent receives one datagram per address over a
`SOCK_SEQPACKET` pair; each datagram carries a 4-byte native-int family tag
followed by the family's address bytes.  The OS-level steps (namespace test,
namespace open, socketpair, fork, wait) are recorded as result fields of a
`ContainerEnv`, and the datagrams the parent receives as a list. -/

/-- Linux `AF_INET`. -/
def af_inet : Nat := 2

/-- Linux `AF_INET6`. -/
def af_inet6 : Nat := 10

/-- The value of `sizeof(int)`, the size of the family tag in a record. -/
def sizeof_int : Nat := 4

/-- Modelled from the spec: `FAMILY_ADDRESS_SIZE` lives in a shared header
not under `src/`; the spec fixes the expected address length at 4 bytes for
IPv4 and 16 bytes for IPv6 (the macro computes `f == AF_INET6 ? 16 : 4`). -/
def family_address_size (family : Nat) : Nat :=
  if family = af_inet6 then 16 else 4

/-- The family tag read out of a record's first 4 bytes (little-endian native
int, as `recvmsg` scatters the datagram into `&family` first). -/
def decode_family (bs : List Nat) : Nat :=
  bs.getD 0 0 + 256 * (bs.getD 1 0 + 256 * (bs.getD 2 0 + 256 * bs.getD 3 0))

/-- One `struct local_address` as assembled by `add_local_address` in the
receive loop: ifindex 0, scope 0, the decoded family, and the address bytes
that followed the tag. -/
structure LocalAddress where
  ifindex : Nat
  scope : Nat
  family : Nat
  bytes : List Nat
deriving DecidableEq, Repr

/-- The helper `add_local_address` appends one entry to the growing list. -/
def add_local_address (list : List LocalAddress) (family : Nat)
    (bytes : List Nat) : List LocalAddress :=
  list ++ [{ ifindex := 0, scope := 0, family := family, bytes := bytes }]

/-- One outcome of `recvmsg_safe` in the parent loop: a failure (negative
errno) or a received datagram's bytes (a zero-length datagram is the
channel-closed indication of a `SOCK_SEQPACKET` socket). -/
inductive Recv where
  | err (e : Int)
  | dat (bytes : List Nat)
deriving DecidableEq, Repr

/-- The parent's receive loop of `machine_get_addresses`, container case:
a receive failure is returned as-is; a datagram shorter than the family tag
(`(size_t) n < sizeof(family)`) breaks out of the loop, returning the list
accumulated so far; a datagram at least tag-sized whose length is not exactly
tag size plus the family's address size returns `-EIO`; a well-formed record
is decoded and appended, and the loop continues. -/
def recv_loop : List Recv → List LocalAddress → Except Int (List LocalAddress)
  | [], list => .ok list
  | .err e :: _, _ => .error e
  | .dat bs :: rest, list =>
      if bs.length < sizeof_int then .ok list
      else if bs.length ≠ sizeof_int + family_address_size (decode_family bs) then
        .error (-eio)
      else
        recv_loop rest
          (add_local_address list (decode_family bs) (bs.drop sizeof_int))

/-- The recorded outcomes of the OS-level steps of one container-class call:
`same_ns` is `in_same_namespace` (negative = failure, positive = same
namespace, zero = distinct); `ns_open` is `pidref_namespace_open`;
`socketpair_res` is the socketpair call (negative = `-errno`);
`fork_res` is `namespace_fork` in the parent (negative = failure, otherwise
the child PID); `stream` is the sequence of parent-side receives; `wait_res`
is `wait_for_terminate_and_check` (negative = failure, otherwise the worker's
exit status). -/
structure ContainerEnv where
  same_ns : Int
  ns_open : Int
  socketpair_res : Int
  fork_res : Int
  stream : List Recv
  wait_res : Int
deriving Repr

/-- What one `machine_get_addresses` call hands back: `ret` is the C return
value (negative errno, or the address count), `addresses` the list stored
through `*ret_addresses` when the call succeeds, and `reterr` the value
written to the `*reterr_errno` side channel, when it is written at all. -/
structure CallResult where
  ret : Int
  addresses : Option (List LocalAddress)
  reterr : Option Int
deriving DecidableEq, Repr

/-- The container branch of `machine_get_addresses`: the same-namespace
guard (failure propagated; sharing the caller's net namespace returns
`-ENONET` with the side channel set), then namespace open, socketpair and
fork (fork failure returns `-ENOEXEC` with the side channel set), then the
receive loop, then the wait: a wait failure returns `-ECHILD` with the side
channel set, a nonzero worker exit status returns `-ESHUTDOWN`, and only a
successful exit returns the accumulated list and its length. -/
def machine_get_addresses_container (env : ContainerEnv) : CallResult :=
  if env.same_ns < 0 then
    { ret := env.same_ns, addresses := none, reterr := none }
  else if env.same_ns > 0 then
    { ret := -enonet, addresses := none, reterr := some env.same_ns }
  else if env.ns_open < 0 then
    { ret := env.ns_open, addresses := none, reterr := none }
  else if env.socketpair_res < 0 then
    { ret := env.socketpair_res, addresses := none, reterr := none }
  else if env.fork_res < 0 then
    { ret := -enoexec, addresses := none, reterr := some env.fork_res }
  else
    match recv_loop env.stream [] with
    | .error e => { ret := e, addresses := none, reterr := none }
    | .ok list =>
        if env.wait_res < 0 then
          { ret := -echild, addresses := none, reterr := some env.wait_res }
        else if env.wait_res ≠ exitSuccess then
          { ret := -eshutdown, addresses := none, reterr := none }
        else
          { ret := (list.length : Int), addresses := some list, reterr := none }

/-- Embeds `machine_get_addresses`, dispatching on the machine class: the host class
returns the caller's own local addresses (`local_addresses` is external; its
outcome is the parameter `host_res`), the container class runs the
cross-namespace protocol, and any other class is `-ENOTSUP`. -/
def machine_get_addresses (mach : Machine)
    (host_res : Except Int (List LocalAddress)) (env : ContainerEnv) :
    CallResult :=
  match mach.mclass with
  | .host =>
      match host_res with
      | .error e => { ret := e, addresses := none, reterr := none }
      | .ok l => { ret := (l.length : Int), addresses := some l, reterr := none }
  | .container => machine_get_addresses_container env
  | _ => { ret := -enotsup, addresses := none, reterr := none }

/-! ## Helper lemmas -/

/-- Appending an entry under a fresh key makes it findable. -/
lemma hget_append_self {β : Type} (l : List (String × β)) (k : String) (v : β)
    (h : hget l k = none) : hget (l ++ [(k, v)]) k = some v := by
  induction l with
  | nil => simp [hget]
  | cons p rest ih =>
      obtain ⟨pk, pv⟩ := p
      by_cases hk : pk = k
      · simp [hget, hk] at h
      · simp only [hget, List.cons_append, if_neg hk] at h ⊢
        exact ih h

/-- A key with no entry has count zero. -/
lemma hcount_eq_zero {β : Type} (l : List (String × β)) (k : String)
    (h : hget l k = none) : hcount l k = 0 := by
  induction l with
  | nil => simp [hcount]
  | cons p rest ih =>
      obtain ⟨pk, pv⟩ := p
      by_cases hk : pk = k
      · simp [hget, hk] at h
      · simp only [hget, if_neg hk] at h
        simp [hcount, if_neg hk, ih h]

/-- The count `hcount` distributes over append. -/
lemma hcount_append {β : Type} (l1 l2 : List (String × β)) (k : String) :
    hcount (l1 ++ l2) k = hcount l1 k + hcount l2 k := by
  induction l1 with
  | nil => simp [hcount]
  | cons p rest ih =>
      obtain ⟨pk, pv⟩ := p
      show (if pk = k then 1 else 0) + hcount (rest ++ l2) k =
        ((if pk = k then 1 else 0) + hcount rest k) + hcount l2 k
      rw [ih]
      omega

/-- A freed machine satisfied the may-collect predicate at free time. -/
lemma gc_step_freed_iff (stop : Machine → Machine) (drop_not_started : Bool)
    (m0 f : Machine) :
    gc_step stop drop_not_started m0 = GCOutcome.freed f ↔
      f = gc_post_stop stop drop_not_started m0 ∧
        machine_may_gc f drop_not_started = true := by
  unfold gc_step
  split
  · rename_i hc
    constructor
    · intro h
      cases h
      exact ⟨rfl, hc⟩
    · intro ⟨h1, _⟩
      rw [h1]
  · rename_i hc
    constructor
    · intro h
      cases h
    · intro ⟨h1, h2⟩
      subst h1
      exact absurd h2 hc

/-- A kept machine failed the second may-collect evaluation. -/
lemma gc_step_kept_iff (stop : Machine → Machine) (drop_not_started : Bool)
    (m0 k : Machine) :
    gc_step stop drop_not_started m0 = GCOutcome.kept k ↔
      k = gc_post_stop stop drop_not_started m0 ∧
        machine_may_gc k drop_not_started = false := by
  unfold gc_step
  split
  · rename_i hc
    constructor
    · intro h
      cases h
    · intro ⟨h1, h2⟩
      subst h1
      rw [hc] at h2
      cases h2
  · rename_i hc
    constructor
    · intro h
      cases h
      exact ⟨rfl, Bool.eq_false_iff.mpr hc⟩
    · intro ⟨h1, _⟩
      rw [h1]

/-- Every machine in the freed list of a drain satisfied may-collect when it
was freed. -/
lemma mem_freed_may_gc (stop : Machine → Machine) (drop_not_started : Bool) :
    ∀ q f, f ∈ (manager_gc stop drop_not_started q).1 →
      machine_may_gc f drop_not_started = true := by
  intro q
  induction q with
  | nil =>
      intro f h
      simp [manager_gc] at h
  | cons m0 rest ih =>
      intro f h
      rw [manager_gc] at h
      cases hstep : gc_step stop drop_not_started m0 with
      | freed g =>
          rw [hstep] at h
          rcases List.mem_cons.mp h with h1 | h1
          · subst h1
            exact ((gc_step_freed_iff stop drop_not_started m0 f).mp hstep).2
          · exact ih f h1
      | kept k =>
          rw [hstep] at h
          exact ih f h

/-- A popped machine whose step keeps it appears in the drain's kept list. -/
lemma gc_kept_mem (stop : Machine → Machine) (drop_not_started : Bool) :
    ∀ q m0 k, m0 ∈ q → gc_step stop drop_not_started m0 = GCOutcome.kept k →
      k ∈ (manager_gc stop drop_not_started q).2 := by
  intro q
  induction q with
  | nil =>
      intro m0 k hm
      cases hm
  | cons a rest ih =>
      intro m0 k hm hk
      rw [manager_gc]
      rcases List.mem_cons.mp hm with h1 | h1
      · subst h1
        rw [hk]
        exact List.mem_cons_self k _
      · cases hstep : gc_step stop drop_not_started a with
        | freed f => exact ih m0 k h1 hk
        | kept kk => exact List.mem_cons_of_mem kk (ih m0 k h1 hk)

/-- A popped machine whose step frees it appears in the drain's freed list. -/
lemma gc_freed_mem (stop : Machine → Machine) (drop_not_started : Bool) :
    ∀ q m0 f, m0 ∈ q → gc_step stop drop_not_started m0 = GCOutcome.freed f →
      f ∈ (manager_gc stop drop_not_started q).1 := by
  intro q
  induction q with
  | nil =>
      intro m0 f hm
      cases hm
  | cons a rest ih =>
      intro m0 f hm hf
      rw [manager_gc]
      rcases List.mem_cons.mp hm with h1 | h1
      · subst h1
        rw [hf]
        exact List.mem_cons_self f _
      · cases hstep : gc_step stop drop_not_started a with
        | freed ff => exact List.mem_cons_of_mem ff (ih m0 f h1 hf)
        | kept kk => exact ih m0 f h1 hf

/-- The receive loop preserves well-formedness of the accumulated addresses:
if every accumulated entry carries exactly its family's address size, so does
every entry of a successful result. -/
lemma recv_loop_wellformed :
    ∀ (stream : List Recv) (acc res : List LocalAddress),
      (∀ a ∈ acc, a.bytes.length = family_address_size a.family) →
      recv_loop stream acc = Except.ok res →
      ∀ a ∈ res, a.bytes.length = family_address_size a.family := by
  intro stream
  induction stream with
  | nil =>
      intro acc res hacc h
      rw [recv_loop] at h
      cases h
      exact hacc
  | cons rcv rest ih =>
      intro acc res hacc h
      cases rcv with
      | err e =>
          rw [recv_loop] at h
          cases h
      | dat bs =>
          rw [recv_loop] at h
          split at h
          · cases h
            exact hacc
          · split at h
            · cases h
            · rename_i hshort hlen
              apply ih _ res _ h
              intro a ha
              rcases List.mem_append.mp ha with h1 | h1
              · exact hacc a h1
              · rcases List.mem_singleton.mp h1 with h2
                subst h2
                simp only [List.length_drop]
                omega

/-- A container-class call that stores an address list through
`*ret_addresses` obtained it from a successful run of the receive loop. -/
lemma container_addresses_of_recv_loop (env : ContainerEnv)
    (l : List LocalAddress)
    (h : (machine_get_addresses_container env).addresses = some l) :
    recv_loop env.stream [] = Except.ok l := by
  unfold machine_get_addresses_container at h
  split at h
  · cases h
  · split at h
    · cases h
    · split at h
      · cases h
      · split at h
        · cases h
        · split at h
          · cases h
          · cases hloop : recv_loop env.stream [] with
            | error e =>
                rw [hloop] at h
                cases h
            | ok list =>
                rw [hloop] at h
                dsimp only at h
                by_cases hw : env.wait_res < 0
                · rw [if_pos hw] at h
                  cases h
                · rw [if_neg hw] at h
                  by_cases hs : env.wait_res ≠ exitSuccess
                  · rw [if_pos hs] at h
                    cases h
                  · rw [if_neg hs] at h
                    cases h
                    rfl

/-! ## Claim theorems -/

/-- C5: `manager_add_machine` is an idempotent get-or-create: for a name
already present it returns the existing machine with the registry untouched
(whatever the allocation/link outcomes would have been); and after a create,
calling it again with the same name yields the same machine and the registry
holds exactly one entry for that name. -/
theorem add_machine_idempotent :
    (∀ (m : Manager) (name : String) (mm : Machine) (a b : Bool),
      hget m.machines name = some mm →
      manager_add_machine m name a b = (0, m, some mm)) ∧
    (∀ (m : Manager) (name : String), hget m.machines name = none →
      ∃ m2 : Manager,
        manager_add_machine m name true true = (0, m2, some (machine_new name)) ∧
        manager_add_machine m2 name true true = (0, m2, some (machine_new name)) ∧
        hcount m2.machines name = 1) := by
  constructor
  · intro m name mm a b hsome
    unfold manager_add_machine
    rw [hsome]
  · intro m name h
    refine ⟨{ machines := m.machines ++ [(name, machine_new name)]
              machines_by_leader := m.machines_by_leader
              machines_by_unit := m.machines_by_unit }, ?_, ?_, ?_⟩
    · unfold manager_add_machine
      rw [h]
      simp [machine_link, machine_new]
    · unfold manager_add_machine
      rw [hget_append_self m.machines name (machine_new name) h]
    · rw [hcount_append, hcount_eq_zero m.machines name h]
      simp [hcount]

/-- C5 witness: in a registry holding one machine under "alpha", re-adding
"alpha" returns that very machine and leaves the registry unchanged. -/
theorem add_machine_idempotent_witness :
    manager_add_machine
        { machines := [("alpha", machine_new "alpha")]
          machines_by_leader := []
          machines_by_unit := [] } "alpha" true true =
      (0,
       { machines := [("alpha", machine_new "alpha")]
         machines_by_leader := []
         machines_by_unit := [] },
       some (machine_new "alpha")) :=
  add_machine_idempotent.1
    { machines := [("alpha", machine_new "alpha")]
      machines_by_leader := []
      machines_by_unit := [] }
    "alpha" (machine_new "alpha") true true (by simp [hget])

/-- C6: `manager_add_machine` is atomic on failure: for a name not yet
registered, if the operation fails (allocation or link failure, negative
return), the registry's indices are exactly as before and no machine is
returned — the partially created machine was discarded. -/
theorem add_machine_atomic (m : Manager) (name : String)
    (new_ok link_ok : Bool) (r : Int) (m2 : Manager) (mm : Option Machine)
    (h : hget m.machines name = none)
    (he : manager_add_machine m name new_ok link_ok = (r, m2, mm))
    (hr : r < 0) : m2 = m ∧ mm = none := by
  unfold manager_add_machine at he
  rw [h] at he
  cases new_ok with
  | false =>
      simp only [Bool.false_eq_true, if_false] at he
      cases he
      exact ⟨rfl, rfl⟩
  | true =>
      simp only [if_true] at he
      cases link_ok with
      | false =>
          simp only [machine_link, Bool.false_eq_true, if_false] at he
          cases he
          exact ⟨rfl, rfl⟩
      | true =>
          simp only [machine_link, if_true] at he
          cases he
          exact absurd hr (by decide)

/-- C6 witness: a failing add on an empty registry leaves it empty and
returns no machine. -/
theorem add_machine_atomic_witness :
    ({ machines := [], machines_by_leader := [], machines_by_unit := [] } :
        Manager) =
      { machines := [], machines_by_leader := [], machines_by_unit := [] } ∧
    (none : Option Machine) = none :=
  add_machine_atomic
    { machines := [], machines_by_leader := [], machines_by_unit := [] }
    "beta" false false (-enomem)
    { machines := [], machines_by_leader := [], machines_by_unit := [] }
    none rfl rfl (by decide)

/-- C7: PID lookup consults the leader index first (on a hit the unit-name
derivation's outcome is irrelevant), swallows a unit-name derivation failure
into a not-found result, reports not-found when both indices miss, and never
returns a negative (error) value. -/
theorem get_machine_by_pid_policy (m : Manager) (pid : Nat) :
    (∀ mm, hget m.machines_by_leader pid = some mm →
      ∀ cg : Except Int String,
        manager_get_machine_by_pid m pid cg = (1, some mm)) ∧
    (hget m.machines_by_leader pid = none →
      ∀ e : Int,
        manager_get_machine_by_pid m pid (Except.error e) = (0, none)) ∧
    (hget m.machines_by_leader pid = none →
      ∀ u : String, hget m.machines_by_unit u = none →
        manager_get_machine_by_pid m pid (Except.ok u) = (0, none)) ∧
    (∀ cg : Except Int String, 0 ≤ (manager_get_machine_by_pid m pid cg).1) := by
  refine ⟨?_, ?_, ?_, ?_⟩
  · intro mm hsome cg
    unfold manager_get_machine_by_pid
    rw [hsome]
  · intro hnone e
    unfold manager_get_machine_by_pid
    rw [hnone]
  · intro hnone u hu
    unfold manager_get_machine_by_pid
    rw [hnone]
    dsimp only
    rw [hu]
  · intro cg
    unfold manager_get_machine_by_pid
    cases hget m.machines_by_leader pid with
    | some mm => simp
    | none =>
        cases cg with
        | error e => simp
        | ok u =>
            dsimp only
            cases hget m.machines_by_unit u with
            | some mm => simp
            | none => simp

/-- C7 witness: on an empty registry a failed unit-name derivation yields the
not-found result (0, no machine), not an error. -/
theorem get_machine_by_pid_policy_witness :
    manager_get_machine_by_pid
        { machines := [], machines_by_leader := [], machines_by_unit := [] }
        5 (Except.error (-1)) = (0, none) :=
  (get_machine_by_pid_policy
      { machines := [], machines_by_leader := [], machines_by_unit := [] }
      5).2.1 rfl (-1)

/-- C8: the UID scan propagates a per-machine translation failure at once
(whatever machines follow are never consulted); a UID outside every range
yields the not-found result, not an error; the first machine whose range
contains the UID is returned with the UID translated by its stored shift;
and the GID scan treats a GID outside every range the same way. -/
theorem find_machine_for_uid_policy :
    (∀ (owns : Machine → Nat → Except Int (Option Nat))
        (pre post : List Machine) (mach : Machine) (id : Nat) (e : Int),
      (∀ p ∈ pre, owns p id = Except.ok none) →
      owns mach id = Except.error e →
      find_machine_scan owns (pre ++ mach :: post) id = Except.error e) ∧
    (∀ (machines : List Machine) (uid : Nat),
      (∀ p ∈ machines, ¬ (p.uid_shift ≤ uid ∧ uid < p.uid_shift + p.uid_range)) →
      manager_find_machine_for_uid machines uid = Except.ok none) ∧
    (∀ (pre post : List Machine) (mach : Machine) (uid : Nat),
      (∀ p ∈ pre, ¬ (p.uid_shift ≤ uid ∧ uid < p.uid_shift + p.uid_range)) →
      mach.uid_shift ≤ uid → uid < mach.uid_shift + mach.uid_range →
      manager_find_machine_for_uid (pre ++ mach :: post) uid =
        Except.ok (some (mach, uid - mach.uid_shift))) ∧
    (∀ (machines : List Machine) (gid : Nat),
      (∀ p ∈ machines, ¬ (p.gid_shift ≤ gid ∧ gid < p.gid_shift + p.gid_range)) →
      manager_find_machine_for_gid machines gid = Except.ok none) := by
  refine ⟨?_, ?_, ?_, ?_⟩
  · intro owns pre
    induction pre with
    | nil =>
        intro post mach id e _ he
        simp only [List.nil_append, find_machine_scan]
        rw [he]
    | cons p rest ih =>
        intro post mach id e hpre he
        simp only [List.cons_append, find_machine_scan]
        rw [hpre p (List.mem_cons_self p rest)]
        exact ih post mach id e (fun x hx => hpre x (List.mem_cons_of_mem p hx)) he
  · intro machines uid
    induction machines with
    | nil => intro _; rfl
    | cons p rest ih =>
        intro hall
        unfold manager_find_machine_for_uid find_machine_scan
        rw [show machine_owns_uid p uid = Except.ok none from
          if_neg (hall p (List.mem_cons_self p rest))]
        exact ih fun x hx => hall x (List.mem_cons_of_mem p hx)
  · intro pre
    induction pre with
    | nil =>
        intro post mach uid _ hlo hhi
        unfold manager_find_machine_for_uid
        simp only [List.nil_append, find_machine_scan]
        rw [show machine_owns_uid mach uid =
          Except.ok (some (uid - mach.uid_shift)) from if_pos ⟨hlo, hhi⟩]
    | cons p rest ih =>
        intro post mach uid hpre hlo hhi
        unfold manager_find_machine_for_uid
        simp only [List.cons_append, find_machine_scan]
        rw [show machine_owns_uid p uid = Except.ok none from
          if_neg (hpre p (List.mem_cons_self p rest))]
        exact ih post mach uid (fun x hx => hpre x (List.mem_cons_of_mem p hx))
          hlo hhi
  · intro machines gid
    induction machines with
    | nil => intro _; rfl
    | cons p rest ih =>
        intro hall
        unfold manager_find_machine_for_gid find_machine_scan
        rw [show machine_owns_gid p gid = Except.ok none from
          if_neg (hall p (List.mem_cons_self p rest))]
        exact ih fun x hx => hall x (List.mem_cons_of_mem p hx)

/-- C8 witness: with one machine mapping host UIDs [1000, 1100) at shift
1000, host UID 1005 resolves to that machine with internal UID 5. -/
theorem find_machine_for_uid_policy_witness :
    manager_find_machine_for_uid
        [{ machine_new "gamma" with uid_shift := 1000, uid_range := 100 }]
        1005 =
      Except.ok
        (some ({ machine_new "gamma" with uid_shift := 1000, uid_range := 100 },
          5)) :=
  find_machine_for_uid_policy.2.2.1 [] []
    { machine_new "gamma" with uid_shift := 1000, uid_range := 100 } 1005
    (by intro p hp; cases hp) (by decide) (by decide)

/-- A concrete stop action for witnesses: it moves the machine towards
Closing; the re-referencing variant below also re-references it. -/
def stop_clean (m : Machine) : Machine := { m with state := MachineState.closing }

/-- A concrete stop action that re-references the machine during its own
stop attempt. -/
def stop_reref (m : Machine) : Machine :=
  { m with state := MachineState.closing, referenced := true }

/-- A concrete Opening, unreferenced machine for witnesses. -/
def opening_machine : Machine := machine_new "delta"

/-- A concrete Running, unreferenced machine for witnesses. -/
def running_machine : Machine :=
  { machine_new "epsilon" with state := MachineState.running }

/-- C2: with `drop_not_started = false` a drain never finalizes-and-frees a
machine still in state Opening — every freed machine had progressed past
Opening, and a popped Opening machine is kept untouched (only its queue flag
cleared); with `drop_not_started = true` an Opening machine with no
outstanding references is finalized-and-freed (provided the stop attempt
leaves it unreferenced), both as a single step and within a whole drain. -/
theorem gc_drop_not_started_policy (stop : Machine → Machine) :
    (∀ (q : List Machine) (f : Machine),
      f ∈ (manager_gc stop false q).1 → f.state ≠ MachineState.opening) ∧
    (∀ m0 : Machine, m0.state = MachineState.opening →
      gc_step stop false m0 = GCOutcome.kept { m0 with in_gc_queue := false }) ∧
    (∀ m0 : Machine, m0.state = MachineState.opening → m0.referenced = false →
      (stop { m0 with in_gc_queue := false }).referenced = false →
      gc_step stop true m0 =
        GCOutcome.freed (stop { m0 with in_gc_queue := false })) ∧
    (∀ (q : List Machine) (m0 : Machine), m0 ∈ q →
      m0.state = MachineState.opening → m0.referenced = false →
      (stop { m0 with in_gc_queue := false }).referenced = false →
      stop { m0 with in_gc_queue := false } ∈ (manager_gc stop true q).1) := by
  have hfree : ∀ m0 : Machine, m0.state = MachineState.opening →
      m0.referenced = false →
      (stop { m0 with in_gc_queue := false }).referenced = false →
      gc_step stop true m0 =
        GCOutcome.freed (stop { m0 with in_gc_queue := false }) := by
    intro m0 hst href hstop
    have hpost : gc_post_stop stop true m0 = stop { m0 with in_gc_queue := false } := by
      unfold gc_post_stop
      rw [if_pos]
      simp [machine_may_gc, machine_get_state, hst, href]
    unfold gc_step
    rw [hpost, if_pos]
    simp [machine_may_gc, hstop]
  refine ⟨?_, ?_, hfree, ?_⟩
  · intro q f hf
    have := mem_freed_may_gc stop false q f hf
    simp [machine_may_gc] at this
    exact this.2
  · intro m0 hst
    have hpost : gc_post_stop stop false m0 = { m0 with in_gc_queue := false } := by
      unfold gc_post_stop
      rw [if_neg]
      simp [machine_may_gc, hst]
    unfold gc_step
    rw [hpost, if_neg]
    simp [machine_may_gc, hst]
  · intro q m0 hq hst href hstop
    exact gc_freed_mem stop true q m0 _ hq (hfree m0 hst href hstop)

/-- C2 witness: a drop-allowing step frees the concrete unreferenced Opening
machine after stopping it. -/
theorem gc_drop_not_started_policy_witness :
    gc_step stop_clean true opening_machine =
      GCOutcome.freed (stop_clean { opening_machine with in_gc_queue := false }) :=
  (gc_drop_not_started_policy stop_clean).2.2.1 opening_machine rfl rfl rfl

/-- C3: a popped machine whose second may-collect evaluation fails is kept —
never finalized-and-freed — with its `in_gc_queue` flag false after the pass
(the stop initiation does not touch the flag, per `hstop`); it therefore
survives any drain whose queue contained it, and a later explicit
`enqueue_gc` appends it to the queue again (it is not filtered out as
already queued). -/
theorem gc_survivor_policy (stop : Machine → Machine)
    (hstop : ∀ x, (stop x).in_gc_queue = x.in_gc_queue)
    (drop_not_started : Bool) (m0 : Machine)
    (h2 : machine_may_gc (gc_post_stop stop drop_not_started m0)
      drop_not_started = false) :
    gc_step stop drop_not_started m0 =
      GCOutcome.kept (gc_post_stop stop drop_not_started m0) ∧
    (∀ f, gc_step stop drop_not_started m0 ≠ GCOutcome.freed f) ∧
    (gc_post_stop stop drop_not_started m0).in_gc_queue = false ∧
    (∀ q, m0 ∈ q →
      gc_post_stop stop drop_not_started m0 ∈
        (manager_gc stop drop_not_started q).2) ∧
    (∀ q2, enqueue_gc q2 (gc_post_stop stop drop_not_started m0) =
      q2 ++ [{ gc_post_stop stop drop_not_started m0 with in_gc_queue := true }]) := by
  have hkept : gc_step stop drop_not_started m0 =
      GCOutcome.kept (gc_post_stop stop drop_not_started m0) := by
    unfold gc_step
    rw [h2]
    simp
  have hflag : (gc_post_stop stop drop_not_started m0).in_gc_queue = false := by
    unfold gc_post_stop
    split
    · rw [hstop]
    · rfl
  refine ⟨hkept, ?_, hflag, ?_, ?_⟩
  · intro f hf
    rw [hkept] at hf
    cases hf
  · intro q hq
    exact gc_kept_mem stop drop_not_started q m0 _ hq hkept
  · intro q2
    unfold enqueue_gc
    rw [hflag]
    simp

/-- C3 witness: the concrete Running machine, re-referenced by its own stop
attempt, is kept by the step and survives the drain of the queue holding it. -/
theorem gc_survivor_policy_witness :
    gc_step stop_reref true running_machine =
      GCOutcome.kept (gc_post_stop stop_reref true running_machine) ∧
    gc_post_stop stop_reref true running_machine ∈
      (manager_gc stop_reref true [running_machine]).2 :=
  ⟨(gc_survivor_policy stop_reref (fun _ => rfl) true running_machine rfl).1,
   (gc_survivor_policy stop_reref (fun _ => rfl) true running_machine rfl).2.2.2.1
     [running_machine] (List.mem_singleton.mpr rfl)⟩

/-- C4: the deferred GC event source only ever carries the
`on_deferred_gc` callback (both when freshly registered and when re-armed),
and firing that callback drains the queue with `drop_not_started = true`;
every registered callback drains with `true`, so only a direct synchronous
`manager_gc` call can pass `false`. -/
theorem deferred_gc_always_drops_not_started :
    (∀ (m : EvManager) (alloc_ok : Bool),
      (∀ es, m.source = some es → es.callback = GcCallback.deferred_gc) →
      ∀ es2, (manager_enqueue_gc m alloc_ok).source = some es2 →
        es2.callback = GcCallback.deferred_gc) ∧
    (∀ (stop : Machine → Machine) (cb : GcCallback) (q : List Machine),
      dispatch stop cb q = manager_gc stop true q) := by
  constructor
  · intro m alloc_ok hinv es2 hes2
    cases hsrc : m.source with
    | some es =>
        simp only [manager_enqueue_gc, hsrc] at hes2
        cases hes2
        exact hinv es hsrc
    | none =>
        simp only [manager_enqueue_gc, hsrc] at hes2
        cases alloc_ok with
        | false =>
            simp only [Bool.false_eq_true, if_false] at hes2
            rw [hsrc] at hes2
        | true =>
            simp only [if_true] at hes2
            cases hes2
            rfl
  · intro stop cb q
    cases cb
    rfl

/-- C4 witness: registering the source on a manager without one yields the
deferred-GC callback, and dispatching it drains the singleton queue with
`drop_not_started = true`. -/
theorem deferred_gc_always_drops_not_started_witness :
    (∀ es2,
      (manager_enqueue_gc { source := none } true).source = some es2 →
      es2.callback = GcCallback.deferred_gc) ∧
    dispatch stop_clean GcCallback.deferred_gc [opening_machine] =
      manager_gc stop_clean true [opening_machine] :=
  ⟨deferred_gc_always_drops_not_started.1 { source := none } true
      (fun _ h => nomatch h),
   deferred_gc_always_drops_not_started.2 stop_clean GcCallback.deferred_gc
      [opening_machine]⟩

/-- C9: for a container-class machine sharing the caller's network namespace,
`machine_get_addresses` fails with the dedicated `-ENONET` code and sets the
`*reterr_errno` side channel; the result does not depend on the channel,
fork, stream or wait outcomes (the call fails before any of them), and the
code is distinct from the framing, wait-failure and abrupt-shutdown codes. -/
theorem container_shared_netns_guard (mach : Machine) (env : ContainerEnv)
    (host_res : Except Int (List LocalAddress))
    (hc : mach.mclass = MachineClass.container)
    (hns : 0 < env.same_ns) :
    machine_get_addresses mach host_res env =
      { ret := -enonet, addresses := none, reterr := some env.same_ns } ∧
    (machine_get_addresses mach host_res env).reterr ≠ none ∧
    (-enonet ≠ -eio ∧ -enonet ≠ -echild ∧ -enonet ≠ -eshutdown) ∧
    (∀ env2 : ContainerEnv, env2.same_ns = env.same_ns →
      machine_get_addresses mach host_res env2 =
        machine_get_addresses mach host_res env) := by
  have hbase : ∀ env2 : ContainerEnv, env2.same_ns = env.same_ns →
      machine_get_addresses mach host_res env2 =
        { ret := -enonet, addresses := none, reterr := some env.same_ns } := by
    intro env2 he
    unfold machine_get_addresses
    rw [hc]
    dsimp only
    unfold machine_get_addresses_container
    rw [he, if_neg (by omega), if_pos hns]
  refine ⟨hbase env rfl, ?_, by refine ⟨by decide, by decide, by decide⟩, ?_⟩
  · rw [hbase env rfl]
    simp
  · intro env2 he
    rw [hbase env2 he, hbase env rfl]

/-- A concrete container-class machine for resolver witnesses. -/
def container_machine : Machine :=
  { machine_new "zeta" with mclass := MachineClass.container }

/-- C9 witness: with the namespace test reporting "same namespace" (1), the
call returns `-ENONET` with the side channel set, for the concrete container
machine and environment. -/
theorem container_shared_netns_guard_witness :
    machine_get_addresses container_machine (Except.ok [])
        { same_ns := 1, ns_open := 0, socketpair_res := 0, fork_res := 1,
          stream := [], wait_res := 0 } =
      { ret := -enonet, addresses := none, reterr := some 1 } :=
  (container_shared_netns_guard container_machine
      { same_ns := 1, ns_open := 0, socketpair_res := 0, fork_res := 1,
        stream := [], wait_res := 0 }
      (Except.ok []) rfl (by decide)).1

/-- C10: once the receive loop has ended successfully, the parent waits for
the worker: a wait failure is fatal with its own `-ECHILD` condition (side
channel set to the wait error); a nonzero worker exit status yields the
dedicated `-ESHUTDOWN` abrupt-shutdown condition, distinct from the framing
code `-EIO` and from the other error codes of the call; and only a
successful worker exit returns the accumulated (possibly empty) list. -/
theorem container_worker_exit_policy (env : ContainerEnv)
    (list : List LocalAddress)
    (h0 : env.same_ns = 0) (h1 : 0 ≤ env.ns_open)
    (h2 : 0 ≤ env.socketpair_res) (h3 : 0 ≤ env.fork_res)
    (hl : recv_loop env.stream [] = Except.ok list) :
    (env.wait_res < 0 →
      machine_get_addresses_container env =
        { ret := -echild, addresses := none, reterr := some env.wait_res }) ∧
    (0 ≤ env.wait_res → env.wait_res ≠ exitSuccess →
      machine_get_addresses_container env =
        { ret := -eshutdown, addresses := none, reterr := none }) ∧
    (-eshutdown ≠ -eio ∧ -eshutdown ≠ -echild ∧ -eshutdown ≠ -enonet ∧
      -eshutdown ≠ -enoexec) ∧
    (env.wait_res = exitSuccess →
      machine_get_addresses_container env =
        { ret := (list.length : Int), addresses := some list, reterr := none }) := by
  have hred : machine_get_addresses_container env =
      if env.wait_res < 0 then
        { ret := -echild, addresses := none, reterr := some env.wait_res }
      else if env.wait_res ≠ exitSuccess then
        { ret := -eshutdown, addresses := none, reterr := none }
      else
        { ret := (list.length : Int), addresses := some list, reterr := none } := by
    unfold machine_get_addresses_container
    rw [hl, h0, if_neg (by omega), if_neg (by omega), if_neg (by omega),
      if_neg (by omega), if_neg (by omega)]
  refine ⟨?_, ?_, ⟨by decide, by decide, by decide, by decide⟩, ?_⟩
  · intro hw
    rw [hred, if_pos hw]
  · intro hge hne
    rw [hred, if_neg (by omega), if_pos hne]
  · intro hz
    rw [show env.wait_res = 0 from hz] at hred
    rw [hred, if_neg (by decide), if_neg (by decide)]

/-- The address 10.0.0.5 as decoded from a well-formed IPv4 record. -/
def ipv4_addr : LocalAddress :=
  { ifindex := 0, scope := 0, family := 2, bytes := [10, 0, 0, 5] }

/-- A concrete environment whose worker emits one well-formed IPv4 record
(family tag 2 little-endian, then 10.0.0.5) and exits successfully. -/
def ipv4_env : ContainerEnv :=
  { same_ns := 0, ns_open := 0, socketpair_res := 0, fork_res := 7,
    stream := [Recv.dat [2, 0, 0, 0, 10, 0, 0, 5]], wait_res := 0 }

/-- C10 witness: on the concrete IPv4 environment the worker exits
successfully, and the call returns exactly the one decoded address. -/
theorem container_worker_exit_policy_witness :
    machine_get_addresses_container ipv4_env =
      { ret := 1, addresses := some [ipv4_addr], reterr := none } :=
  (container_worker_exit_policy ipv4_env [ipv4_addr]
      rfl (by decide) (by decide) (by decide) rfl).2.2.2 rfl

/-- A concrete environment whose worker emits a single 2-byte datagram —
shorter than the 4-byte family tag — and exits successfully. -/
def short_record_env : ContainerEnv :=
  { same_ns := 0, ns_open := 0, socketpair_res := 0, fork_res := 7,
    stream := [Recv.dat [2, 0]], wait_res := 0 }

/-- C1 counterexample: a received record of 2 bytes — shorter than the
family-tag size — is NOT treated as a framing error.  The receive loop
breaks out normally, exactly as on a zero-length receive, and the whole call
succeeds with an empty address list (return value 0, not a negative error):
`if ((size_t) n < sizeof(family)) break;` covers every length below the tag
size, not only zero. -/
theorem short_receive_is_not_framing_error :
    machine_get_addresses_container short_record_env =
      { ret := 0, addresses := some [], reterr := none } ∧
    ¬ (machine_get_addresses_container short_record_env).ret < 0 := by
  constructor
  · rfl
  · decide

/-- C1 (amended): in the parent's receive loop, a zero-length receive ends
the loop normally; any nonzero receive shorter than the family-tag size
ALSO ends the loop normally (it is not distinguished from a close); a
receive of at least tag size whose length is not exactly tag-size plus the
family's expected address length is a framing error `-EIO`; and every
address in a returned list carries exactly its family's address size, so no
partial address from a truncated record ever appears in the result. -/
theorem recv_loop_framing_policy :
    (∀ (rest : List Recv) (list : List LocalAddress),
      recv_loop (Recv.dat [] :: rest) list = Except.ok list) ∧
    (∀ (bs : List Nat) (rest : List Recv) (list : List LocalAddress),
      bs.length < sizeof_int →
      recv_loop (Recv.dat bs :: rest) list = Except.ok list) ∧
    (∀ (bs : List Nat) (rest : List Recv) (list : List LocalAddress),
      sizeof_int ≤ bs.length →
      bs.length ≠ sizeof_int + family_address_size (decode_family bs) →
      recv_loop (Recv.dat bs :: rest) list = Except.error (-eio)) ∧
    (∀ (env : ContainerEnv) (l : List LocalAddress),
      (machine_get_addresses_container env).addresses = some l →
      ∀ a ∈ l, a.bytes.length = family_address_size a.family) := by
  refine ⟨?_, ?_, ?_, ?_⟩
  · intro rest list
    rw [recv_loop, if_pos (by decide)]
  · intro bs rest list hshort
    rw [recv_loop, if_pos hshort]
  · intro bs rest list hge hlen
    rw [recv_loop, if_neg (Nat.not_lt.mpr hge), if_pos hlen]
  · intro env l hl
    exact recv_loop_wellformed env.stream [] l (by intro a ha; cases ha)
      (container_addresses_of_recv_loop env l hl)

/-- C1 (amended) witness: a 1-byte receive ends the loop normally with the
accumulated (empty) list; a 5-byte receive whose tag declares IPv4 (so 8
bytes were expected) is the framing error `-EIO`; and the single address
returned on the concrete IPv4 environment has exactly 4 address bytes. -/
theorem recv_loop_framing_policy_witness :
    recv_loop [Recv.dat [3]] [] = Except.ok [] ∧
    recv_loop [Recv.dat [2, 0, 0, 0, 9]] [] = Except.error (-eio) ∧
    ∀ a ∈ [ipv4_addr], a.bytes.length = family_address_size a.family :=
  ⟨recv_loop_framing_policy.2.1 [3] [] [] (by decide),
   recv_loop_framing_policy.2.2.1 [2, 0, 0, 0, 9] [] [] (by decide) (by decide),
   recv_loop_framing_policy.2.2.2 ipv4_env [ipv4_addr] rfl⟩

end Machined
